import Mathlib

/-!
Shallow embedding of `pkg/amiclean/ami_cleaner.go` from the truss-aws-tools
repository, together with theorems settling the specification claims about
its image-selection and purge pipeline.

Modelling conventions:
* AWS SDK string pointers that the code always dereferences are modelled as
  plain `String`s; the one place the spec discusses possible nil pointers
  (`BlockDeviceMapping.Ebs` and `Ebs.SnapshotId` in `PurgeImage`) is
  modelled with `Option`, and a nil dereference (Go panic) is modelled by
  the whole function returning `none`.
* The EC2 client is modelled as a record of pure response functions, and
  every function that talks to the API additionally returns the list of
  API calls it actually issued, so that frame claims ("issues no call",
  "one call per mapping in order") can be stated.
* Go errors are modelled as `Except String`; a Go `(value, error)` pair
  where exactly one side is meaningful becomes `Except String value`.
* `zap` logging has no observable effect on the results and is omitted.
-/

set_option autoImplicit false

namespace AmiClean

/-- Model of `ec2.Tag`: a key/value pair. -/
structure Tag where
  Key : String
  Value : String
  deriving DecidableEq, Repr

/-- Model of `ec2.EbsBlockDevice`; `SnapshotId` is a pointer in the SDK, so
it is an `Option` here. -/
structure Ebs where
  SnapshotId : Option String
  deriving DecidableEq, Repr

/-- Model of `ec2.BlockDeviceMapping`; the `Ebs` member is a pointer in the
SDK (nil for ephemeral devices), so it is an `Option` here. -/
structure BlockDeviceMapping where
  Ebs : Option Ebs
  deriving DecidableEq, Repr

/-- Model of `ec2.Image` restricted to the fields `ami_cleaner.go` reads. -/
structure Image where
  Name : String
  CreationDate : String
  ImageId : String
  RootDeviceType : String
  Tags : List Tag
  BlockDeviceMappings : List BlockDeviceMapping
  deriving DecidableEq, Repr

/-- Model of `ec2.Filter`. -/
structure Filter where
  Name : String
  Values : List String
  deriving DecidableEq, Repr

/-- Model of `ec2.DescribeImagesInput` restricted to the field the code sets. -/
structure DescribeImagesInput where
  Owners : List String
  deriving DecidableEq, Repr

/-- Model of `ec2.DescribeImagesOutput` restricted to the list of images. -/
structure DescribeImagesOutput where
  Images : List Image
  deriving DecidableEq, Repr

/-- Model of `ec2.DescribeInstancesInput` restricted to the field the code sets. -/
structure DescribeInstancesInput where
  Filters : List Filter
  deriving DecidableEq, Repr

/-- Model of `ec2.Reservation`; `CheckUnused` never looks inside one. -/
structure Reservation where
  deriving DecidableEq, Repr

/-- Model of `ec2.DescribeInstancesOutput`; the code only checks whether the
`Reservations` slice is nil, so the slice is an `Option (List Reservation)`
with `none` playing the role of the nil slice. -/
structure DescribeInstancesOutput where
  Reservations : Option (List Reservation)
  deriving DecidableEq, Repr

/-- Model of `ec2.DeregisterImageInput`. -/
structure DeregisterImageInput where
  DryRun : Bool
  ImageId : String
  deriving DecidableEq, Repr

/-- Model of `ec2.DeregisterImageOutput` (no field is inspected). -/
structure DeregisterImageOutput where
  deriving DecidableEq, Repr

/-- Model of `ec2.DeleteSnapshotInput`. -/
structure DeleteSnapshotInput where
  DryRun : Bool
  SnapshotId : String
  deriving DecidableEq, Repr

/-- Model of `ec2.DeleteSnapshotOutput` (no field is inspected). -/
structure DeleteSnapshotOutput where
  deriving DecidableEq, Repr

/-- Model of the `ec2.EC2` client as a record of pure response functions:
each method maps its input to either an error or an output, mirroring the
Go `(output, error)` return convention. -/
structure EC2Client where
  DescribeImages : DescribeImagesInput → Except String DescribeImagesOutput
  DescribeInstances : DescribeInstancesInput → Except String DescribeInstancesOutput
  DeregisterImage : DeregisterImageInput → Except String DeregisterImageOutput
  DeleteSnapshot : DeleteSnapshotInput → Except String DeleteSnapshotOutput

/-- One API call actually issued to the EC2 endpoint, recorded with the
exact input that was passed. Dry-run branches of the Go code only log and
issue no call, so they record nothing. -/
inductive APICall where
  | DescribeImages : DescribeImagesInput → APICall
  | DescribeInstances : DescribeInstancesInput → APICall
  | DeregisterImage : DeregisterImageInput → APICall
  | DeleteSnapshot : DeleteSnapshotInput → APICall
  deriving DecidableEq, Repr

/-- Model of a Go `time.Time` restricted to the UTC civil fields that the
`RFC8601` layout `2006-01-02T15:04:05.000Z` produces. `time.Parse` only
produces normalized values, on which the instant order used by
`time.Time.After` coincides with lexicographic field order. -/
structure GoTime where
  year : Nat
  month : Nat
  day : Nat
  hour : Nat
  minute : Nat
  second : Nat
  milli : Nat
  deriving DecidableEq, Repr

/-- The zero `time.Time` (January 1, year 1, 00:00:00 UTC), which Go's
`time.Parse` returns alongside the error when parsing fails. -/
def zeroTime : GoTime := ⟨1, 1, 1, 0, 0, 0, 0⟩

/-- Lexicographic strict order on equally long lists of naturals. -/
def lexGT : List Nat → List Nat → Bool
  | x :: xs, y :: ys =>
    if x > y then true else if x < y then false else lexGT xs ys
  | _, _ => false

/-- The civil fields of a `GoTime`, most significant first. -/
def GoTime.fields (t : GoTime) : List Nat :=
  [t.year, t.month, t.day, t.hour, t.minute, t.second, t.milli]

/-- Model of `time.Time.After`: `t.after u` is true when `t` is strictly
later than `u`; on normalized civil times this is the lexicographic order
on the fields. -/
def GoTime.after (t u : GoTime) : Bool :=
  lexGT t.fields u.fields

/-- Numeric value of a decimal digit character, or `none`. -/
def digitVal (c : Char) : Option Nat :=
  if c.isDigit then some (c.toNat - 48) else none

/-- Consume exactly `n` decimal digits from the character stream, returning
the accumulated value and the rest of the stream. -/
def takeDigits : Nat → Nat → List Char → Option (Nat × List Char)
  | 0, acc, cs => some (acc, cs)
  | _ + 1, _, [] => none
  | n + 1, acc, c :: cs => do
    let d ← digitVal c
    takeDigits n (acc * 10 + d) cs

/-- Consume one expected literal character. -/
def expectChar (c : Char) : List Char → Option (List Char)
  | [] => none
  | x :: xs => if x = c then some xs else none

/-- Model of Go's `isLeap`. -/
def isLeapYear (y : Nat) : Bool :=
  y % 4 == 0 && (y % 100 != 0 || y % 400 == 0)

/-- Model of Go's `daysIn`: number of days in a month of a given year. -/
def daysIn (month year : Nat) : Nat :=
  if month == 2 then (if isLeapYear year then 29 else 28)
  else if month == 4 || month == 6 || month == 9 || month == 11 then 30
  else 31

/-- Model of `time.Parse(RFC8601, s)` for the fixed layout
`2006-01-02T15:04:05.000Z` (the trailing `Z` is a literal in this layout):
four digit year, two digit month, day, hour, minute and second, exactly
three fractional digits, with the range checks Go's parser performs.
Returns `none` where Go returns a non-nil error (and the zero time). -/
def parseRFC8601 (s : String) : Option GoTime :=
  match takeDigits 4 0 s.toList with
  | none => none
  | some (year, cs1) =>
  match expectChar '-' cs1 with
  | none => none
  | some cs2 =>
  match takeDigits 2 0 cs2 with
  | none => none
  | some (month, cs3) =>
  match expectChar '-' cs3 with
  | none => none
  | some cs4 =>
  match takeDigits 2 0 cs4 with
  | none => none
  | some (day, cs5) =>
  match expectChar 'T' cs5 with
  | none => none
  | some cs6 =>
  match takeDigits 2 0 cs6 with
  | none => none
  | some (hour, cs7) =>
  match expectChar ':' cs7 with
  | none => none
  | some cs8 =>
  match takeDigits 2 0 cs8 with
  | none => none
  | some (minute, cs9) =>
  match expectChar ':' cs9 with
  | none => none
  | some cs10 =>
  match takeDigits 2 0 cs10 with
  | none => none
  | some (second, cs11) =>
  match expectChar '.' cs11 with
  | none => none
  | some cs12 =>
  match takeDigits 3 0 cs12 with
  | none => none
  | some (milli, cs13) =>
  match expectChar 'Z' cs13 with
  | none => none
  | some cs14 =>
  if cs14.isEmpty &&
      (1 ≤ month && month ≤ 12) &&
      (1 ≤ day && day ≤ daysIn month year) &&
      (hour ≤ 23) && (minute ≤ 59) && (second ≤ 59) then
    some ⟨year, month, day, hour, minute, second, milli⟩
  else
    none

/-- Model of the `AMIClean` struct; the `zap` logger is omitted and the
`EC2Client` is the record of response functions above. -/
structure AMIClean where
  NamePrefix : String
  Delete : Bool
  Tag : Tag
  Invert : Bool
  Unused : Bool
  ExpirationDate : GoTime
  EC2Client : EC2Client

/-- Model of Go's `strings.HasPrefix(s, p)`: true when `p` is a leading
substring of `s`. -/
def hasPrefixStr (s p : String) : Bool :=
  p.toList.isPrefixOf s.toList

/-- Loop body of `matchTags`: scan the image's tags for the first one whose
key matches, reporting whether its value also matches. -/
def matchTagsLoop (tag : Tag) : List Tag → Bool × Tag
  | [] => (false, { Key := tag.Key, Value := "not found" })
  | imageTag :: rest =>
    if tag.Key = imageTag.Key then
      if tag.Value = imageTag.Value then (true, imageTag)
      else (false, imageTag)
    else matchTagsLoop tag rest

/-- Model of `matchTags`: whether an arbitrary tag is set to the
appropriate value within an image, together with the tag found. -/
def matchTags (image : Image) (tag : Tag) : Bool × Tag :=
  matchTagsLoop tag image.Tags

/-- Model of `AMIClean.CheckUnused`: describe the instances filtered on this
image's ID; error propagates, a non-nil `Reservations` slice means the image
is in use (`false`), a nil slice means unused (`true`). The second component
is the list of API calls issued. -/
def CheckUnused (a : AMIClean) (image : Image) :
    Except String Bool × List APICall :=
  let amiFilter : Filter := { Name := "image-id", Values := [image.ImageId] }
  let findInstancesInput : DescribeInstancesInput := { Filters := [amiFilter] }
  match a.EC2Client.DescribeInstances findInstancesInput with
  | Except.error err =>
    (Except.error err, [APICall.DescribeInstances findInstancesInput])
  | Except.ok output =>
    match output.Reservations with
    | some _ => (Except.ok false, [APICall.DescribeInstances findInstancesInput])
    | none => (Except.ok true, [APICall.DescribeInstances findInstancesInput])

/-- The `a.Unused` block of `CheckImage` with its two early `return false`
paths (usage check errored, or the image is in use) folded into a single
boolean: the block lets execution continue exactly when this is true. -/
def unusedGate (a : AMIClean) (image : Image) : Bool :=
  if a.Unused then
    match (CheckUnused a image).1 with
    | Except.error _ => false
    | Except.ok unused => unused
  else true

/-- Model of `AMIClean.CheckImage`: the composite purge predicate. The Go
early returns inside the `a.Unused` block are folded into `unusedGate`;
the control flow is otherwise line-for-line. -/
def CheckImage (a : AMIClean) (image : Image) : Bool :=
  if !(hasPrefixStr image.Name a.NamePrefix) then
    false
  else
    let imageCreationTime := (parseRFC8601 image.CreationDate).getD zeroTime
    if imageCreationTime.after a.ExpirationDate then
      false
    else
      if !(unusedGate a image) then
        false
      else
        let matched := (matchTags image a.Tag).1
        if a.Invert != matched then true
        else false

/-- The snapshot-collection loop of `PurgeImage`: dereference
`blockDevice.Ebs.SnapshotId` for every mapping; a nil pointer is a Go
panic, modelled as `none` for the whole collection. -/
def collectSnapshotIds : List BlockDeviceMapping → Option (List String)
  | [] => some []
  | blockDevice :: rest => do
    let ebs ← blockDevice.Ebs
    let snapshotID ← ebs.SnapshotId
    let restIds ← collectSnapshotIds rest
    pure (snapshotID :: restIds)

/-- The snapshot-deletion loop of `PurgeImage`: for each snapshot ID build
a `DeleteSnapshotInput` with `DryRun = !a.Delete`; when `a.Delete` is set
actually call `DeleteSnapshot`, returning early on the first error,
otherwise only log. Returns the first error (if any) and the API calls
issued. -/
def deleteSnapshotLoop (a : AMIClean) : List String → Option String × List APICall
  | [] => (none, [])
  | snapshot :: rest =>
    let deleteInput : DeleteSnapshotInput :=
      { DryRun := !a.Delete, SnapshotId := snapshot }
    if a.Delete then
      match a.EC2Client.DeleteSnapshot deleteInput with
      | Except.error err => (some err, [APICall.DeleteSnapshot deleteInput])
      | Except.ok _ =>
        let tail := deleteSnapshotLoop a rest
        (tail.1, APICall.DeleteSnapshot deleteInput :: tail.2)
    else
      deleteSnapshotLoop a rest

/-- Model of `AMIClean.PurgeImage`. The result is `none` when the Go code
panics on a nil `Ebs` pointer; otherwise it is the returned
`(string, error)` pair (error `none` standing for Go's nil error) together
with the list of API calls issued. Non-EBS root devices are skipped
entirely; otherwise the image is deregistered (when `Delete` is set) and
each collected snapshot is deleted in order, with early return on the
first API error. -/
def PurgeImage (a : AMIClean) (image : Image) :
    Option ((String × Option String) × List APICall) :=
  if image.RootDeviceType != "ebs" then
    some ((image.ImageId, none), [])
  else
    match collectSnapshotIds image.BlockDeviceMappings with
    | none => none
    | some snapshotIds =>
      let deregisterInput : DeregisterImageInput :=
        { DryRun := !a.Delete, ImageId := image.ImageId }
      if a.Delete then
        match a.EC2Client.DeregisterImage deregisterInput with
        | Except.error err =>
          some (("Failed to deregister image", some err),
            [APICall.DeregisterImage deregisterInput])
        | Except.ok _ =>
          match deleteSnapshotLoop a snapshotIds with
          | (some err, calls) =>
            some (("Failed to delete snapshot", some err),
              APICall.DeregisterImage deregisterInput :: calls)
          | (none, calls) =>
            some ((image.ImageId, none),
              APICall.DeregisterImage deregisterInput :: calls)
      else
        match deleteSnapshotLoop a snapshotIds with
        | (some err, calls) =>
          some (("Failed to delete snapshot", some err), calls)
        | (none, calls) =>
          some ((image.ImageId, none), calls)

/-- Model of `AMIClean.GetImages`: describe all images owned by `self`,
passing an API error through unchanged, together with the API calls
issued. -/
def GetImages (a : AMIClean) :
    Except String DescribeImagesOutput × List APICall :=
  let input : DescribeImagesInput := { Owners := ["self"] }
  match a.EC2Client.DescribeImages input with
  | Except.error err => (Except.error err, [APICall.DescribeImages input])
  | Except.ok output => (Except.ok output, [APICall.DescribeImages input])

/-! ### Concrete test fixtures

Concrete clients, configurations and images used to instantiate the
theorems below at closed inputs. -/

/-- A client on which every call succeeds and no instance uses any image. -/
def okClient : EC2Client :=
  { DescribeImages := fun _ => Except.ok { Images := [] }
    DescribeInstances := fun _ => Except.ok { Reservations := none }
    DeregisterImage := fun _ => Except.ok {}
    DeleteSnapshot := fun _ => Except.ok {} }

/-- A client whose `DescribeInstances` always fails. -/
def errClient : EC2Client :=
  { okClient with DescribeInstances := fun _ => Except.error "boom" }

/-- A deleting configuration with the usage check enabled. -/
def aPurge : AMIClean :=
  { NamePrefix := "ci-", Delete := true, Tag := ⟨"Branch", "master"⟩,
    Invert := false, Unused := true,
    ExpirationDate := ⟨2024, 1, 1, 0, 0, 0, 0⟩, EC2Client := okClient }

/-- `aPurge` in dry-run mode. -/
def aDry : AMIClean := { aPurge with Delete := false }

/-- `aPurge` with the failing client. -/
def aErr : AMIClean := { aPurge with EC2Client := errClient }

/-- An EBS-rooted image old enough to purge, with two snapshot-backed
block device mappings. -/
def img1 : Image :=
  { Name := "ci-ami-1", CreationDate := "2023-06-01T00:00:00.000Z",
    ImageId := "ami-123", RootDeviceType := "ebs",
    Tags := [⟨"Branch", "master"⟩],
    BlockDeviceMappings := [⟨some ⟨some "snap-1"⟩⟩, ⟨some ⟨some "snap-2"⟩⟩] }

/-- `img1` with a creation date that does not parse. -/
def imgBadDate : Image := { img1 with CreationDate := "garbage" }

/-- `img1` backed by the instance store instead of EBS. -/
def imgStore : Image := { img1 with RootDeviceType := "instance-store" }

/-! ### Helper lemmas -/

/-- The unused gate passes exactly when either the option is off, or the
usage check succeeded and reported the image unused. -/
theorem unusedGate_true_iff (a : AMIClean) (image : Image) :
    unusedGate a image = true ↔
      (a.Unused = true → (CheckUnused a image).1 = Except.ok true) := by
  unfold unusedGate
  cases hu : a.Unused with
  | false => simp
  | true =>
    cases hcu : (CheckUnused a image).1 with
    | error e => simp [hcu]
    | ok b => cases b <;> simp [hcu]

/-- `CheckImage` as a single boolean conjunction of its four components. -/
theorem checkImage_eq_conj (a : AMIClean) (image : Image) :
    CheckImage a image =
      (hasPrefixStr image.Name a.NamePrefix &&
        !GoTime.after ((parseRFC8601 image.CreationDate).getD zeroTime)
          a.ExpirationDate &&
        unusedGate a image &&
        (a.Invert != (matchTags image a.Tag).1)) := by
  unfold CheckImage
  cases hp : hasPrefixStr image.Name a.NamePrefix <;>
    cases ha : GoTime.after ((parseRFC8601 image.CreationDate).getD zeroTime)
        a.ExpirationDate <;>
      cases hg : unusedGate a image <;>
        cases hi : a.Invert <;>
          cases hm : (matchTags image a.Tag).1 <;>
            simp [hp, ha, hg, hi, hm]

/-! ### Claims -/

/-- C1: for every image, `CheckImage` returns true iff the image's name
starts with the configured `NamePrefix`, the parsed creation date is not
after `ExpirationDate`, the usage check (when `Unused` is set) reports the
image unused without error, and the tag-match result differs from the
`Invert` flag. -/
theorem checkImage_true_iff (a : AMIClean) (image : Image) :
    CheckImage a image = true ↔
      (hasPrefixStr image.Name a.NamePrefix = true ∧
        GoTime.after ((parseRFC8601 image.CreationDate).getD zeroTime)
          a.ExpirationDate = false ∧
        (a.Unused = true → (CheckUnused a image).1 = Except.ok true) ∧
        (matchTags image a.Tag).1 ≠ a.Invert) := by
  rw [checkImage_eq_conj]
  simp only [Bool.and_eq_true, Bool.not_eq_true', bne_iff_ne,
    unusedGate_true_iff, ne_comm, and_assoc]

/-- Neither `CheckUnused` nor the unused gate reads the `Invert` flag. -/
theorem unusedGate_invert (a : AMIClean) (b : Bool) (image : Image) :
    unusedGate { a with Invert := b } image = unusedGate a image := rfl

/-- C4: `CheckUnused` reports the image unused exactly when the
instance-description query filtered on the image's ID succeeds with a nil
reservation list; it reports the image used whenever the query returns a
non-nil reservation list; and with `Unused` set, an image the usage check
reports in use is never selected by `CheckImage`. -/
theorem checkUnused_spec (a : AMIClean) (image : Image) :
    ((CheckUnused a image).1 = Except.ok true ↔
        a.EC2Client.DescribeInstances
            { Filters := [{ Name := "image-id", Values := [image.ImageId] }] } =
          Except.ok { Reservations := none }) ∧
      (∀ rs : List Reservation,
        a.EC2Client.DescribeInstances
            { Filters := [{ Name := "image-id", Values := [image.ImageId] }] } =
          Except.ok { Reservations := some rs } →
        (CheckUnused a image).1 = Except.ok false) ∧
      (a.Unused = true → (CheckUnused a image).1 = Except.ok false →
        CheckImage a image = false) := by
  refine ⟨?_, ?_, ?_⟩
  · simp only [CheckUnused]
    cases h : a.EC2Client.DescribeInstances
        { Filters := [{ Name := "image-id", Values := [image.ImageId] }] } with
    | error e => simp
    | ok out =>
      obtain ⟨rs⟩ := out
      cases rs with
      | none => simp
      | some l => simp
  · intro rs h
    simp only [CheckUnused, h]
  · intro hu hfalse
    have hg : unusedGate a image = false := by
      simp [unusedGate, hu, hfalse]
    simp [checkImage_eq_conj, hg]

/-- C6: for an image that passes the prefix, age and (if enabled) usage
checks, flipping only the `Invert` flag negates the result of
`CheckImage`. -/
theorem checkImage_invert_flips (a : AMIClean) (image : Image)
    (hp : hasPrefixStr image.Name a.NamePrefix = true)
    (ha : GoTime.after ((parseRFC8601 image.CreationDate).getD zeroTime)
      a.ExpirationDate = false)
    (hu : a.Unused = true → (CheckUnused a image).1 = Except.ok true) :
    CheckImage { a with Invert := true } image =
      !(CheckImage { a with Invert := false } image) := by
  have hg : unusedGate a image = true := (unusedGate_true_iff a image).mpr hu
  cases hm : (matchTags image a.Tag).1 <;>
    simp [checkImage_eq_conj, unusedGate_invert, hg, hp, ha, hm]

/-- Closed instance of `checkImage_invert_flips` at a concrete
configuration and image satisfying all three hypotheses. -/
theorem checkImage_invert_flips_witness :
    CheckImage { aPurge with Invert := true } img1 =
      !(CheckImage { aPurge with Invert := false } img1) :=
  checkImage_invert_flips aPurge img1 (by decide) (by decide) (fun _ => rfl)

/-- C8: with `Unused` set, an image whose usage check fails with an error
is never selected by `CheckImage`. -/
theorem checkImage_unused_error_false (a : AMIClean) (image : Image)
    (hu : a.Unused = true) (e : String)
    (he : (CheckUnused a image).1 = Except.error e) :
    CheckImage a image = false := by
  have hg : unusedGate a image = false := by
    simp [unusedGate, hu, he]
  simp [checkImage_eq_conj, hg]

/-- Closed instance of `checkImage_unused_error_false` on the failing
client. -/
theorem checkImage_unused_error_false_witness :
    CheckImage aErr img1 = false :=
  checkImage_unused_error_false aErr img1 rfl "boom" rfl

/-- C9: an image whose creation date does not parse is given the zero
creation time, so whenever the zero time is not after the expiration date
the age check passes and `CheckImage` reduces to the remaining three
components of the predicate. -/
theorem checkImage_unparsable_date (a : AMIClean) (image : Image)
    (hparse : parseRFC8601 image.CreationDate = none)
    (hz : GoTime.after zeroTime a.ExpirationDate = false) :
    CheckImage a image = true ↔
      (hasPrefixStr image.Name a.NamePrefix = true ∧
        (a.Unused = true → (CheckUnused a image).1 = Except.ok true) ∧
        (matchTags image a.Tag).1 ≠ a.Invert) := by
  rw [checkImage_eq_conj, hparse]
  simp only [Option.getD_none, hz, Bool.not_false, Bool.and_true,
    Bool.and_eq_true, unusedGate_true_iff, bne_iff_ne, ne_comm, and_assoc]

/-- Closed instance of `checkImage_unparsable_date` on an image with an
unparsable creation date, which is indeed selected. -/
theorem checkImage_unparsable_date_witness :
    CheckImage aPurge imgBadDate = true ↔
      (hasPrefixStr imgBadDate.Name aPurge.NamePrefix = true ∧
        (aPurge.Unused = true →
          (CheckUnused aPurge imgBadDate).1 = Except.ok true) ∧
        (matchTags imgBadDate aPurge.Tag).1 ≠ aPurge.Invert) :=
  checkImage_unparsable_date aPurge imgBadDate (by decide) (by decide)

/-- In dry-run mode the snapshot loop issues no call and reports no
error. -/
theorem deleteSnapshotLoop_of_not_delete (a : AMIClean)
    (hd : a.Delete = false) :
    ∀ ids : List String, deleteSnapshotLoop a ids = (none, []) := by
  intro ids
  induction ids with
  | nil => rfl
  | cons s rest ih => simp [deleteSnapshotLoop, hd, ih]

/-- With `Delete` set and every deletion succeeding, the snapshot loop
issues exactly one non-dry-run `DeleteSnapshot` call per snapshot ID, in
order, and reports no error. -/
theorem deleteSnapshotLoop_all_ok (a : AMIClean) (hd : a.Delete = true) :
    ∀ ids : List String,
      (∀ sid ∈ ids,
        a.EC2Client.DeleteSnapshot { DryRun := false, SnapshotId := sid } =
          Except.ok {}) →
      deleteSnapshotLoop a ids =
        (none, ids.map fun sid =>
          APICall.DeleteSnapshot { DryRun := false, SnapshotId := sid }) := by
  intro ids
  induction ids with
  | nil => intro _; rfl
  | cons s rest ih =>
    intro h
    have hs := h s (List.mem_cons_self _ _)
    have hrest := fun sid hsid => h sid (List.mem_cons_of_mem _ hsid)
    simp [deleteSnapshotLoop, hd, hs, ih hrest]

/-- The snapshot collection succeeds exactly when every block device
mapping carries an EBS member with a snapshot ID. -/
theorem collectSnapshotIds_isSome_iff (l : List BlockDeviceMapping) :
    (collectSnapshotIds l).isSome = true ↔
      ∀ bd ∈ l, ∃ e, bd.Ebs = some e ∧ ∃ sid, e.SnapshotId = some sid := by
  induction l with
  | nil => simp [collectSnapshotIds]
  | cons bd rest ih =>
    cases hE : bd.Ebs with
    | none => simp [collectSnapshotIds, hE]
    | some e =>
      cases hS : e.SnapshotId with
      | none => simp [collectSnapshotIds, hE, hS]
      | some sid =>
        cases hC : collectSnapshotIds rest with
        | none =>
          rw [hC] at ih
          simp only [Option.isSome_none, Bool.false_eq_true, false_iff] at ih
          simp [collectSnapshotIds, hE, hS, hC, ih]
        | some ids =>
          rw [hC] at ih
          simp only [Option.isSome_some, true_iff] at ih
          simp [collectSnapshotIds, hE, hS, hC]
          exact ih

/-- C2: in dry-run mode (`Delete` false), whenever `PurgeImage` returns it
has issued no API call at all and its result is the image's ID with a nil
error. -/
theorem purgeImage_dryrun_noop (a : AMIClean) (image : Image)
    (hd : a.Delete = false) (res : String × Option String)
    (calls : List APICall)
    (h : PurgeImage a image = some (res, calls)) :
    res = (image.ImageId, none) ∧ calls = [] := by
  have hkey : PurgeImage a image = none ∨
      PurgeImage a image = some ((image.ImageId, none), []) := by
    simp only [PurgeImage, hd, deleteSnapshotLoop_of_not_delete a hd]
    split
    · exact Or.inr rfl
    · split
      · exact Or.inl rfl
      · exact Or.inr rfl
  rcases hkey with hk | hk
  · rw [hk] at h
    exact Option.noConfusion h
  · rw [hk] at h
    simp only [Option.some.injEq, Prod.mk.injEq] at h
    exact ⟨h.1.symm, h.2.symm⟩

/-- Closed instance of `purgeImage_dryrun_noop` at a dry-run configuration
and a two-snapshot EBS image. -/
theorem purgeImage_dryrun_noop_witness :
    ("ami-123", (none : Option String)) = (img1.ImageId, none) ∧
      ([] : List APICall) = [] :=
  purgeImage_dryrun_noop aDry img1 rfl ("ami-123", none) [] rfl

/-- C3: with `Delete` set, on an EBS-rooted image whose snapshot
collection succeeds and whose API calls all succeed, `PurgeImage` first
issues the deregister call and then one non-dry-run `DeleteSnapshot` call
per collected snapshot ID in mapping order, returning the image's ID with
a nil error. -/
theorem purgeImage_delete_ebs_trace (a : AMIClean) (image : Image)
    (hroot : image.RootDeviceType = "ebs") (hd : a.Delete = true)
    (ids : List String)
    (hids : collectSnapshotIds image.BlockDeviceMappings = some ids)
    (hder : a.EC2Client.DeregisterImage
        { DryRun := false, ImageId := image.ImageId } = Except.ok {})
    (hdel : ∀ sid ∈ ids,
      a.EC2Client.DeleteSnapshot { DryRun := false, SnapshotId := sid } =
        Except.ok {}) :
    PurgeImage a image =
      some ((image.ImageId, none),
        APICall.DeregisterImage { DryRun := false, ImageId := image.ImageId } ::
          ids.map (fun sid =>
            APICall.DeleteSnapshot { DryRun := false, SnapshotId := sid })) := by
  simp only [PurgeImage, hroot, bne_self_eq_false, hd, hids, Bool.not_true,
    deleteSnapshotLoop_all_ok a hd ids hdel, hder]
  simp

/-- Closed instance of `purgeImage_delete_ebs_trace` at a deleting
configuration and a two-snapshot EBS image. -/
theorem purgeImage_delete_ebs_trace_witness :
    PurgeImage aPurge img1 =
      some ((img1.ImageId, none),
        APICall.DeregisterImage { DryRun := false, ImageId := img1.ImageId } ::
          (["snap-1", "snap-2"].map (fun sid =>
            APICall.DeleteSnapshot { DryRun := false, SnapshotId := sid }))) :=
  purgeImage_delete_ebs_trace aPurge img1 rfl rfl ["snap-1", "snap-2"] rfl rfl
    (fun _ _ => rfl)

/-- C5: on an image whose root device is not EBS, `PurgeImage` is a safe
no-op for any configuration: no API call is issued and it returns the
image's ID with a nil error. -/
theorem purgeImage_non_ebs_noop (a : AMIClean) (image : Image)
    (hroot : image.RootDeviceType ≠ "ebs") :
    PurgeImage a image = some ((image.ImageId, none), []) := by
  simp [PurgeImage, hroot]

/-- Closed instance of `purgeImage_non_ebs_noop` on an instance-store
image with `Delete` set. -/
theorem purgeImage_non_ebs_noop_witness :
    PurgeImage aPurge imgStore = some ((imgStore.ImageId, none), []) :=
  purgeImage_non_ebs_noop aPurge imgStore (by decide)

/-- C7: `GetImages` issues exactly one `DescribeImages` call, for images
owned by `self`, and returns the client's response unchanged: the output
on success, the error on failure. -/
theorem getImages_spec (a : AMIClean) :
    GetImages a =
      (a.EC2Client.DescribeImages { Owners := ["self"] },
        [APICall.DescribeImages { Owners := ["self"] }]) := by
  simp only [GetImages]
  cases h : a.EC2Client.DescribeImages { Owners := ["self"] } <;> simp

/-- C10: `PurgeImage` completes without a nil-pointer dereference exactly
when the image is not EBS-rooted, or every block device mapping carries an
EBS member with a snapshot ID; on an EBS-rooted image with a mapping
lacking either, it panics (modelled by `none`). -/
theorem purgeImage_isSome_iff (a : AMIClean) (image : Image) :
    (PurgeImage a image).isSome = true ↔
      (image.RootDeviceType ≠ "ebs" ∨
        ∀ bd ∈ image.BlockDeviceMappings,
          ∃ e, bd.Ebs = some e ∧ ∃ sid, e.SnapshotId = some sid) := by
  by_cases hroot : image.RootDeviceType = "ebs"
  · cases hC : collectSnapshotIds image.BlockDeviceMappings with
    | none =>
      have hL : PurgeImage a image = none := by
        simp [PurgeImage, hroot, hC]
      refine iff_of_false (by rw [hL]; simp) ?_
      rintro (h | h)
      · exact h hroot
      · have := (collectSnapshotIds_isSome_iff image.BlockDeviceMappings).mpr h
        rw [hC] at this
        simp at this
    | some ids =>
      have hL : (PurgeImage a image).isSome = true := by
        simp only [PurgeImage, hroot, bne_self_eq_false, Bool.false_eq_true,
          if_false, hC]
        split
        · split
          · rfl
          · split <;> rfl
        · split <;> rfl
      have hR : ∀ bd ∈ image.BlockDeviceMappings,
          ∃ e, bd.Ebs = some e ∧ ∃ sid, e.SnapshotId = some sid :=
        (collectSnapshotIds_isSome_iff image.BlockDeviceMappings).mp
          (by rw [hC]; rfl)
      exact iff_of_true hL (Or.inr hR)
  · have hL : PurgeImage a image = some ((image.ImageId, none), []) := by
      simp [PurgeImage, hroot]
    exact iff_of_true (by rw [hL]; rfl) (Or.inl hroot)

end AmiClean
